import Mathlib

/-!
Shallow embedding of the draft-state engine of
`fantasy-football-draft-assistant` (`draft_assistant.py`).

Conventions of the embedding:
* Python floats are modelled as `ℚ` (the score formulas use only exact
  decimal constants, so rational arithmetic mirrors the formulas exactly).
* `players_df` is a `List Player` (one row per player, already cleaned and
  sorted ascending by expert rank, as `_load_data` leaves it).
* Python dicts that the code builds with insertion order are association
  lists.  `draft_state['team_rosters']` is keyed by whatever Python value
  was used as the key: `record_pick` uses `int` team numbers, while a state
  loaded back from JSON has `str` keys (JSON object keys are strings), so
  the key type is the sum `JKey` of the two.
* The `timestamp` field of a pick is wall-clock metadata consumed by no
  computation in the engine and is omitted.
* Fallible operations return `Bool × DraftState` exactly like the source
  returns a success flag while mutating `self.draft_state`.
-/

/-- One row of `players_df`: `Name`, `Position`, `Team`, `Expert_Rank`. -/
structure Player where
  name : String
  position : String
  team : String
  expertRank : ℚ
deriving DecidableEq, Repr

/-- The `pick_info` dict built by `record_pick` (timestamp omitted, see
module conventions). -/
structure Pick where
  playerName : String
  teamNumber : Int
  position : String
  expertRank : ℚ
  round : Int
  pick : Int
  isYourPick : Bool
deriving DecidableEq, Repr

/-- A Python dict key as it can occur in `draft_state['team_rosters']`:
an `int` team number while the state lives in memory, or the `str` image
of that number after a JSON dump/load round trip. -/
inductive JKey where
  | intKey : Int → JKey
  | strKey : String → JKey
deriving DecidableEq, Repr

/-- The `self.draft_state` dict. -/
structure DraftState where
  round : Int
  pick : Int
  totalTeams : Int
  draftFormat : List (String × Int)
  draftedPlayers : List Pick
  teamRosters : List (JKey × List Pick)
  currentTeam : Int
deriving DecidableEq, Repr

/-- The initial `draft_state` set in `__init__`. -/
def initialDraftState : DraftState :=
  { round := 1, pick := 1, totalTeams := 12, draftFormat := [],
    draftedPlayers := [], teamRosters := [], currentTeam := 1 }

/-- `self.players_df[self.players_df['Name'] == player_name]` followed by
`.iloc[0]`: the first row whose name matches. -/
def findPlayer (catalog : List Player) (playerName : String) : Option Player :=
  catalog.find? (fun p => p.name = playerName)

/-- `set_draft_format`: stores the format dict unconditionally. -/
def set_draft_format (s : DraftState) (formatConfig : List (String × Int)) : DraftState :=
  { s with draftFormat := formatConfig }

/-- `set_draft_parameters`: stores `total_teams` and `current_team`
unconditionally (the source performs no validation). -/
def set_draft_parameters (s : DraftState) (totalTeams currentTeam : Int) : DraftState :=
  { s with totalTeams := totalTeams, currentTeam := currentTeam }

/-- `_calculate_current_team`: snake order; odd round → `pick`, even round
→ `total_teams - pick + 1`.  Pure function of the state. -/
def calculateCurrentTeam (s : DraftState) : Int :=
  if s.round % 2 = 1 then s.pick else s.totalTeams - s.pick + 1

/-- `_advance_draft_position`: end of round rolls over to `(round+1, 1)`,
otherwise `pick` increments. -/
def advanceDraftPosition (s : DraftState) : DraftState :=
  if s.pick = s.totalTeams then { s with round := s.round + 1, pick := 1 }
  else { s with pick := s.pick + 1 }

/-- Lookup in the `team_rosters` dict. -/
def lookupRoster (rosters : List (JKey × List Pick)) (k : JKey) : Option (List Pick) :=
  (rosters.find? (fun kv => kv.1 = k)).map (fun kv => kv.2)

/-- The two roster-update statements of `record_pick`: create the key with
an empty list if absent (a fresh dict key goes to the end in insertion
order), then append the pick to that key's list. -/
def updateRoster (rosters : List (JKey × List Pick)) (k : JKey) (p : Pick) :
    List (JKey × List Pick) :=
  match lookupRoster rosters k with
  | none => rosters ++ [(k, [p])]
  | some _ => rosters.map (fun kv => if kv.1 = k then (kv.1, kv.2 ++ [p]) else kv)

/-- `record_pick`: unknown player → `(False, unchanged)`; otherwise default
the team number from `_calculate_current_team`, default `is_your_pick` from
`current_team`, append the pick to the history and the team roster, then
advance the position. -/
def record_pick (catalog : List Player) (s : DraftState) (playerName : String)
    (teamNumber : Option Int) (isYourPick : Option Bool) : Bool × DraftState :=
  match findPlayer catalog playerName with
  | none => (false, s)
  | some player =>
    let tn := teamNumber.getD (calculateCurrentTeam s)
    let yours := isYourPick.getD (tn = s.currentTeam)
    let pickInfo : Pick :=
      { playerName := playerName, teamNumber := tn, position := player.position,
        expertRank := player.expertRank, round := s.round, pick := s.pick,
        isYourPick := yours }
    let s1 := { s with draftedPlayers := s.draftedPlayers ++ [pickInfo],
                       teamRosters := updateRoster s.teamRosters (JKey.intKey tn) pickInfo }
    (true, advanceDraftPosition s1)

/-- `get_current_draft_position`: `(round - 1) * total_teams + pick`. -/
def get_current_draft_position (s : DraftState) : Int :=
  (s.round - 1) * s.totalTeams + s.pick

/-- The list of already drafted names, as read off the global history. -/
def draftedNames (s : DraftState) : List String :=
  s.draftedPlayers.map (fun pk => pk.playerName)

/-- Stable insertion of a player into a list sorted ascending by
`expertRank` (ties keep the earlier element first). -/
def insertByRank (p : Player) : List Player → List Player
  | [] => [p]
  | q :: t => if q.expertRank ≤ p.expertRank then q :: insertByRank p t else p :: q :: t

/-- Comparison sort ascending by `expertRank`, modelling
`sort_values('Expert_Rank')`. -/
def sortByRank : List Player → List Player
  | [] => []
  | p :: t => insertByRank p (sortByRank t)

/-- `get_available_players`: rows of `players_df` whose name is not among
the drafted names, sorted ascending by expert rank. -/
def get_available_players (catalog : List Player) (s : DraftState) : List Player :=
  sortByRank (catalog.filter (fun p => ¬ p.name ∈ draftedNames s))

/-- `position_counts.get(pos, 0)` over a roster. -/
def countPosition (roster : List Pick) (pos : String) : Nat :=
  (roster.filter (fun pk => pk.position = pos)).length

/-- `get_team_needs`: a team with no roster entry gets the full draft
format; otherwise each format position maps to
`max(0, required - count_on_roster)`. -/
def get_team_needs (s : DraftState) (teamNumber : Int) : List (String × Int) :=
  match lookupRoster s.teamRosters (JKey.intKey teamNumber) with
  | none => s.draftFormat
  | some roster =>
      s.draftFormat.map (fun pr => (pr.1, max 0 (pr.2 - (countPosition roster pr.1 : Int))))

/-- `your_needs.get(position, 0)`: dict lookup with default `0`. -/
def needsGet (needs : List (String × Int)) (pos : String) : Int :=
  match needs.find? (fun pr => pr.1 = pos) with
  | some pr => pr.2
  | none => 0

/-- `Value_Score` column: `1 / Expert_Rank`. -/
def valueScore (p : Player) : ℚ := 1 / p.expertRank

/-- `.max()` over a pandas series, used only on non-empty pools (the code
guards with `if not available.empty`). -/
def listMax : List ℚ → ℚ
  | [] => 0
  | x :: xs => xs.foldl max x

/-- `.min()` over a pandas series, see `listMax`. -/
def listMin : List ℚ → ℚ
  | [] => 0
  | x :: xs => xs.foldl min x

/-- The `relative_value` column computed in `get_recommendations` over the
available pool: min-max normalization of `Value_Score` to `[0, 100]`, with
every row set to `100` when the pool's value range is not positive. -/
def relativeValue (pool : List Player) (p : Player) : ℚ :=
  let bestValue := listMax (pool.map valueScore)
  let worstValue := listMin (pool.map valueScore)
  let valueRange := bestValue - worstValue
  if 0 < valueRange then ((valueScore p - worstValue) / valueRange) * 100 else 100

/-- The `relative_value` read-back
`available.loc[available['Name'] == player['Name'], 'relative_value'].iloc[0]`:
the relative value of the first pool row whose name matches. -/
def relativeValueByName (pool : List Player) (playerName : String) : ℚ :=
  ((pool.find? (fun q => q.name = playerName)).map (relativeValue pool)).getD 0

/-- The per-player `final_score` computed inside the loop of
`get_recommendations`, translated line by line from the source:
`base_score + need_bonus + value_bonus + scarcity_bonus + adp_value_bonus`
with the pool, the needs of `current_team` and the current overall pick
taken from the live state. -/
def recommendationScore (catalog : List Player) (s : DraftState) (p : Player) : ℚ :=
  let yourNeeds := get_team_needs s s.currentTeam
  let available := get_available_players catalog s
  let baseScore := 1 / p.expertRank
  let currentPick : ℚ := ((s.round - 1) * s.totalTeams + s.pick : Int)
  let adpValueBonus : ℚ :=
    if p.expertRank < currentPick then min ((currentPick - p.expertRank) * (1/10)) 2 else 0
  let needBonus : ℚ :=
    if 0 < needsGet yourNeeds p.position then (needsGet yourNeeds p.position : ℚ) * (3/10)
    else -(2/10)
  let valueBonus : ℚ := relativeValueByName available p.name * (2/100)
  let posAvailable : ℚ := ((available.filter (fun q => q.position = p.position)).length : ℚ)
  let scarcityBonus : ℚ := max 0 ((10 - posAvailable) * (1/10))
  baseScore + needBonus + valueBonus + scarcityBonus + adpValueBonus

/-- Modelled from the words of the spec's scoring formula (§4.5), for
comparison with `recommendationScore`: `1/expert_rank` plus the need,
value, scarcity and ADP bonuses, with `adp_value_bonus = 0` when
`expert_rank >= current_overall_position`, and `value_bonus` taken
directly as the player's own relative value times `0.02`. -/
def specScore (catalog : List Player) (s : DraftState) (p : Player) : ℚ :=
  let pool := get_available_players catalog s
  let overallPos : ℚ := (get_current_draft_position s : Int)
  let adpValueBonus : ℚ :=
    if overallPos ≤ p.expertRank then 0 else min ((overallPos - p.expertRank) * (1/10)) 2
  let need := needsGet (get_team_needs s s.currentTeam) p.position
  let needBonus : ℚ := if 0 < need then (need : ℚ) * (3/10) else -(2/10)
  let valueBonus : ℚ := relativeValue pool p * (2/100)
  let scarcityBonus : ℚ :=
    max 0 ((10 - ((pool.filter (fun q => q.position = p.position)).length : ℚ)) * (1/10))
  1 / p.expertRank + needBonus + valueBonus + scarcityBonus + adpValueBonus

/-- The summary dict built by `get_draft_summary`. -/
structure DraftSummary where
  currentRound : Int
  currentPick : Int
  currentDraftPosition : Int
  yourTeam : Int
  yourRoster : List Pick
  yourNeeds : List (String × Int)
  totalDrafted : Nat
  draftFormat : List (String × Int)
  nextPickEstimate : Int
deriving DecidableEq, Repr

/-- `_estimate_next_pick`. -/
def estimateNextPick (s : DraftState) : Int :=
  if s.pick < s.currentTeam then s.currentTeam - s.pick
  else s.totalTeams - s.pick + s.currentTeam

/-- `get_draft_summary`: note `your_roster` is
`team_rosters.get(current_team, [])`, an `int`-keyed lookup. -/
def get_draft_summary (s : DraftState) : DraftSummary :=
  { currentRound := s.round
    currentPick := s.pick
    currentDraftPosition := get_current_draft_position s
    yourTeam := s.currentTeam
    yourRoster := (lookupRoster s.teamRosters (JKey.intKey s.currentTeam)).getD []
    yourNeeds := get_team_needs s s.currentTeam
    totalDrafted := s.draftedPlayers.length
    draftFormat := s.draftFormat
    nextPickEstimate := estimateNextPick s }

/-- The image of a roster key under `json.dump` followed by `json.load`:
JSON object keys are strings, so `json.dump` writes an `int` key `1` as
`"1"` and `json.load` returns it as the string `"1"`. -/
def jkeyJsonImage : JKey → JKey
  | JKey.intKey n => JKey.strKey (toString n)
  | JKey.strKey x => JKey.strKey x

/-- The in-memory `draft_state` after `import_draft_state` reads back the
file written by `export_draft_state`: `import_draft_state` installs the
loaded dict unchanged, and the only field the JSON round trip does not
reproduce verbatim is `team_rosters`, whose `int` keys come back as
strings (ints, bools, strings and float `Expert_Rank` values round-trip
exactly through `json.dump`/`json.load`). -/
def exportThenImport (s : DraftState) : DraftState :=
  { s with teamRosters := s.teamRosters.map (fun kv => (jkeyJsonImage kv.1, kv.2)) }

/-- One call of `record_pick` as issued by a caller: the player name and
the two optional arguments. -/
structure RecordReq where
  name : String
  teamNumber : Option Int
  isYourPick : Option Bool
deriving DecidableEq, Repr

/-- A sequence of `record_pick` calls, each applied to the state the
previous one left behind (a failed call leaves the state unchanged, as in
the source). -/
def runRecords (catalog : List Player) (s : DraftState) (reqs : List RecordReq) : DraftState :=
  reqs.foldl (fun st r => (record_pick catalog st r.name r.teamNumber r.isYourPick).2) s

/-- A fresh engine state right after `set_draft_format` and
`set_draft_parameters` on `__init__`'s state: no picks recorded yet. -/
def freshState (totalTeams currentTeam : Int) (fmt : List (String × Int)) : DraftState :=
  set_draft_parameters (set_draft_format initialDraftState fmt) totalTeams currentTeam

/-- Number of picks carrying a given player name in the global history. -/
def histCountName (x : String) (s : DraftState) : Nat :=
  s.draftedPlayers.countP (fun pk => pk.playerName = x)

/-- All picks sitting in team rosters, in roster order. -/
def allRosterPicks (rosters : List (JKey × List Pick)) : List Pick :=
  (rosters.map (fun kv => kv.2)).flatten

/-- Number of picks carrying a given player name across all rosters. -/
def rosterCountName (x : String) (s : DraftState) : Nat :=
  (allRosterPicks s.teamRosters).countP (fun pk => pk.playerName = x)

/-- The keys of the `team_rosters` dict in insertion order. -/
def rosterKeys (rosters : List (JKey × List Pick)) : List JKey :=
  rosters.map (fun kv => kv.1)

/-- Checks that every call of a `record_pick` sequence returns `True`,
each call applied to the state the previous one left behind. -/
def recordAllOk (catalog : List Player) : DraftState → List RecordReq → Bool
  | _, [] => true
  | s, r :: t =>
      let res := record_pick catalog s r.name r.teamNumber r.isYourPick
      res.1 && recordAllOk catalog res.2 t

/-- A small concrete player table shaped like a cleaned `REDRAFT-rankings`
load: sorted ascending by expert rank, names unique. -/
def exampleCatalog : List Player :=
  [ { name := "Alpha RB", position := "RB", team := "AAA", expertRank := 1 },
    { name := "Bravo WR", position := "WR", team := "BBB", expertRank := 2 },
    { name := "Charlie RB", position := "RB", team := "CCC", expertRank := 3 },
    { name := "Delta QB", position := "QB", team := "DDD", expertRank := 4 },
    { name := "Echo WR", position := "WR", team := "EEE", expertRank := 5 },
    { name := "Foxtrot TE", position := "TE", team := "FFF", expertRank := 6 },
    { name := "Golf RB", position := "RB", team := "GGG", expertRank := 7 },
    { name := "Hotel WR", position := "WR", team := "HHH", expertRank := 8 },
    { name := "India QB", position := "QB", team := "III", expertRank := 9 },
    { name := "Juliett RB", position := "RB", team := "JJJ", expertRank := 10 },
    { name := "Kilo WR", position := "WR", team := "KKK", expertRank := 11 },
    { name := "Lima TE", position := "TE", team := "LLL", expertRank := 12 },
    { name := "Mike DST", position := "DST", team := "MMM", expertRank := 13 },
    { name := "November K", position := "K", team := "NNN", expertRank := 14 } ]

/-- The draft format of the spec's worked example. -/
def exampleFormat : List (String × Int) :=
  [("QB", 1), ("RB", 2), ("WR", 3), ("TE", 1), ("FLEX", 1), ("DST", 1), ("K", 1)]

/-- Concrete tracker state used to instantiate the snake-order theorem. -/
def c6State : DraftState :=
  { round := 1, pick := 2, totalTeams := 12, draftFormat := [],
    draftedPlayers := [], teamRosters := [], currentTeam := 1 }

/-- Concrete tracker state at the start of a round, used to instantiate
the advance-a-full-round theorem. -/
def c7IterState : DraftState :=
  { round := 3, pick := 1, totalTeams := 4, draftFormat := [],
    draftedPlayers := [], teamRosters := [], currentTeam := 1 }

/-- The state of the spec's worked example: 12 teams, the user is team 5,
full example draft format, nothing recorded yet. -/
def c7Start : DraftState := freshState 12 5 exampleFormat

/-- Thirteen `record_pick` calls with defaulted team numbers: the whole
first round plus the first pick of round two. -/
def c7Reqs : List RecordReq :=
  [ { name := "Alpha RB", teamNumber := none, isYourPick := none },
    { name := "Bravo WR", teamNumber := none, isYourPick := none },
    { name := "Charlie RB", teamNumber := none, isYourPick := none },
    { name := "Delta QB", teamNumber := none, isYourPick := none },
    { name := "Echo WR", teamNumber := none, isYourPick := none },
    { name := "Foxtrot TE", teamNumber := none, isYourPick := none },
    { name := "Golf RB", teamNumber := none, isYourPick := none },
    { name := "Hotel WR", teamNumber := none, isYourPick := none },
    { name := "India QB", teamNumber := none, isYourPick := none },
    { name := "Juliett RB", teamNumber := none, isYourPick := none },
    { name := "Kilo WR", teamNumber := none, isYourPick := none },
    { name := "Lima TE", teamNumber := none, isYourPick := none },
    { name := "Mike DST", teamNumber := none, isYourPick := none } ]

/-- A roster entry used to instantiate the needs theorem. -/
def c8Pick : Pick :=
  { playerName := "Delta QB", teamNumber := 3, position := "QB", expertRank := 4,
    round := 1, pick := 3, isYourPick := false }

/-- Concrete state with one roster entry for team 3, used to instantiate
the needs theorem. -/
def c8State : DraftState :=
  { freshState 12 3 [("QB", 1), ("RB", 2)] with
      draftedPlayers := [c8Pick],
      teamRosters := [(JKey.intKey 3, [c8Pick])] }

/-- Two-player catalog used to instantiate the scoring theorem. -/
def c2Catalog : List Player :=
  [ { name := "Alpha RB", position := "RB", team := "AAA", expertRank := 1 },
    { name := "Delta QB", position := "QB", team := "DDD", expertRank := 4 } ]

/-- State used to instantiate the scoring theorem. -/
def c2State : DraftState := freshState 12 1 exampleFormat

/-- Player used to instantiate the scoring theorem. -/
def c2Player : Player :=
  { name := "Alpha RB", position := "RB", team := "AAA", expertRank := 1 }

/-- State with the first example player recorded once (auto team number,
so team 1 = the user's team at pick (1,1)). -/
def c1State : DraftState :=
  (record_pick exampleCatalog (freshState 12 1 exampleFormat) "Alpha RB" none none).2

/-- State with the first example player recorded a second time on top of
`c1State`. -/
def c4State : DraftState :=
  (record_pick exampleCatalog c1State "Alpha RB" none none).2

/-! ### Helper lemmas -/

theorem advance_draftedPlayers (s : DraftState) :
    (advanceDraftPosition s).draftedPlayers = s.draftedPlayers := by
  unfold advanceDraftPosition; split <;> rfl

theorem advance_teamRosters (s : DraftState) :
    (advanceDraftPosition s).teamRosters = s.teamRosters := by
  unfold advanceDraftPosition; split <;> rfl

/-! ### C6: snake order of the team on the clock -/

/-- C6: for a tracker state with `round ≥ 1`, `1 ≤ pick ≤ total_teams` and
`total_teams ≥ 1`, `_calculate_current_team` (a pure function of the
state) returns `pick` in odd rounds and `total_teams - pick + 1` in even
rounds, and its values at round `r` and round `r+1` (same pick) sum to
`total_teams + 1` — the mirror symmetry of consecutive snake rounds. -/
theorem claim_C6_team_on_clock (s : DraftState)
    (hr : 1 ≤ s.round) (hp1 : 1 ≤ s.pick) (hpT : s.pick ≤ s.totalTeams)
    (hT : 1 ≤ s.totalTeams) :
    (Odd s.round → calculateCurrentTeam s = s.pick) ∧
    (Even s.round → calculateCurrentTeam s = s.totalTeams - s.pick + 1) ∧
    calculateCurrentTeam s + calculateCurrentTeam { s with round := s.round + 1 }
      = s.totalTeams + 1 := by
  refine ⟨?_, ?_, ?_⟩
  · intro h
    rw [Int.odd_iff] at h
    simp [calculateCurrentTeam, h]
  · intro h
    rw [Int.even_iff] at h
    simp [calculateCurrentTeam, h]
  · rcases Int.emod_two_eq s.round with h | h
    · have h2 : (s.round + 1) % 2 = 1 := by omega
      simp only [calculateCurrentTeam, h, h2]
      norm_num
      omega
    · have h2 : (s.round + 1) % 2 = 0 := by omega
      simp only [calculateCurrentTeam, h, h2]
      norm_num
      omega

/-- C6 witness: the theorem applied at a concrete state, round 1, pick 2,
12 teams. -/
theorem claim_C6_team_on_clock_witness :
    (Odd c6State.round → calculateCurrentTeam c6State = c6State.pick) ∧
    (Even c6State.round →
      calculateCurrentTeam c6State = c6State.totalTeams - c6State.pick + 1) ∧
    calculateCurrentTeam c6State
      + calculateCurrentTeam { c6State with round := c6State.round + 1 }
      = c6State.totalTeams + 1 :=
  claim_C6_team_on_clock c6State (by decide) (by decide) (by decide) (by decide)

/-! ### C3: an unknown player name mutates nothing -/

/-- C3: when the player name is absent from the catalog, `record_pick`
returns `False` and changes nothing: the history, the rosters and the
`(round, pick)` position are all left as they were. -/
theorem claim_C3_unknown_player_no_mutation (catalog : List Player) (s : DraftState)
    (playerName : String) (tn : Option Int) (iy : Option Bool)
    (habsent : ∀ q ∈ catalog, q.name ≠ playerName) :
    (record_pick catalog s playerName tn iy).1 = false ∧
    (record_pick catalog s playerName tn iy).2.draftedPlayers = s.draftedPlayers ∧
    (record_pick catalog s playerName tn iy).2.teamRosters = s.teamRosters ∧
    (record_pick catalog s playerName tn iy).2.round = s.round ∧
    (record_pick catalog s playerName tn iy).2.pick = s.pick := by
  have hfind : findPlayer catalog playerName = none := by
    unfold findPlayer
    rw [List.find?_eq_none]
    intro q hq
    simpa using habsent q hq
  simp [record_pick, hfind]

/-- C3 witness: the theorem applied at the example catalog and a name not
in it. -/
theorem claim_C3_unknown_player_witness :
    (record_pick exampleCatalog initialDraftState "Zulu Nobody" none none).1 = false ∧
    (record_pick exampleCatalog initialDraftState "Zulu Nobody" none none).2.draftedPlayers
      = initialDraftState.draftedPlayers ∧
    (record_pick exampleCatalog initialDraftState "Zulu Nobody" none none).2.teamRosters
      = initialDraftState.teamRosters ∧
    (record_pick exampleCatalog initialDraftState "Zulu Nobody" none none).2.round
      = initialDraftState.round ∧
    (record_pick exampleCatalog initialDraftState "Zulu Nobody" none none).2.pick
      = initialDraftState.pick :=
  claim_C3_unknown_player_no_mutation exampleCatalog initialDraftState
    "Zulu Nobody" none none (by decide)

/-! ### C9: `set_draft_parameters` performs no validation -/

/-- C9 counterexample: setting 12 teams with `current_team = 99` (outside
`[1, 12]`) is not rejected — the new value is stored, so the previously
configured `current_team` does not survive, contrary to the claim. -/
theorem claim_C9_counterexample :
    (set_draft_parameters initialDraftState 12 99).currentTeam = 99 ∧
    (set_draft_parameters initialDraftState 12 99).currentTeam
      ≠ initialDraftState.currentTeam := by
  decide

/-- C9 amended: `set_draft_parameters` performs no range validation — even
for `current_team` outside `[1, total_teams]` it stores both parameters as
given and touches nothing else (rejection of out-of-range team numbers
exists only in the CLI front end). -/
theorem claim_C9_amended (s : DraftState) (totalTeams currentTeam : Int)
    (hout : currentTeam < 1 ∨ totalTeams < currentTeam) :
    (set_draft_parameters s totalTeams currentTeam).totalTeams = totalTeams ∧
    (set_draft_parameters s totalTeams currentTeam).currentTeam = currentTeam ∧
    (set_draft_parameters s totalTeams currentTeam).round = s.round ∧
    (set_draft_parameters s totalTeams currentTeam).pick = s.pick ∧
    (set_draft_parameters s totalTeams currentTeam).draftFormat = s.draftFormat ∧
    (set_draft_parameters s totalTeams currentTeam).draftedPlayers = s.draftedPlayers ∧
    (set_draft_parameters s totalTeams currentTeam).teamRosters = s.teamRosters :=
  ⟨rfl, rfl, rfl, rfl, rfl, rfl, rfl⟩

/-- C9 witness: the amended theorem applied at the initial state with
`current_team = 99` out of range. -/
theorem claim_C9_amended_witness :
    (set_draft_parameters initialDraftState 12 99).totalTeams = 12 ∧
    (set_draft_parameters initialDraftState 12 99).currentTeam = 99 ∧
    (set_draft_parameters initialDraftState 12 99).round = initialDraftState.round ∧
    (set_draft_parameters initialDraftState 12 99).pick = initialDraftState.pick ∧
    (set_draft_parameters initialDraftState 12 99).draftFormat
      = initialDraftState.draftFormat ∧
    (set_draft_parameters initialDraftState 12 99).draftedPlayers
      = initialDraftState.draftedPlayers ∧
    (set_draft_parameters initialDraftState 12 99).teamRosters
      = initialDraftState.teamRosters :=
  claim_C9_amended initialDraftState 12 99 (Or.inr (by decide))

/-! ### C10: defaulted team number and `is_your_pick` -/

/-- C10: a successful `record_pick` with neither `team_number` nor
`is_your_pick` supplied appends exactly one pick, whose team number is the
snake-order team computed from the pre-advance `(round, pick)` state and
whose `is_your_pick` flag is true exactly when that team number equals the
configured `current_team`. -/
theorem claim_C10_defaulted_arguments (catalog : List Player) (s : DraftState)
    (playerName : String) (p : Player)
    (hfind : findPlayer catalog playerName = some p) :
    ∃ pi : Pick,
      (record_pick catalog s playerName none none).1 = true ∧
      (record_pick catalog s playerName none none).2.draftedPlayers
        = s.draftedPlayers ++ [pi] ∧
      pi.teamNumber = calculateCurrentTeam s ∧
      (pi.isYourPick = true ↔ pi.teamNumber = s.currentTeam) := by
  refine ⟨{ playerName := playerName, teamNumber := calculateCurrentTeam s,
            position := p.position, expertRank := p.expertRank, round := s.round,
            pick := s.pick,
            isYourPick := decide (calculateCurrentTeam s = s.currentTeam) },
          ?_, ?_, rfl, ?_⟩
  · simp [record_pick, hfind]
  · simp [record_pick, hfind, advance_draftedPlayers]
  · simp

/-- C10 witness: the theorem applied at the example catalog, the initial
state and the top-ranked player. -/
theorem claim_C10_defaulted_arguments_witness :
    ∃ pi : Pick,
      (record_pick exampleCatalog initialDraftState "Alpha RB" none none).1 = true ∧
      (record_pick exampleCatalog initialDraftState "Alpha RB" none none).2.draftedPlayers
        = initialDraftState.draftedPlayers ++ [pi] ∧
      pi.teamNumber = calculateCurrentTeam initialDraftState ∧
      (pi.isYourPick = true ↔ pi.teamNumber = initialDraftState.currentTeam) :=
  claim_C10_defaulted_arguments exampleCatalog initialDraftState "Alpha RB"
    { name := "Alpha RB", position := "RB", team := "AAA", expertRank := 1 }
    (by decide)

/-! ### C8: team needs -/

/-- C8: for every team and every draft format with non-negative slot
counts, `get_team_needs` maps each format position to
`max(0, required - count_on_roster)` (with the roster read as empty when
the team has no roster entry), hence never returns a negative value and
covers exactly the format's positions; a team with no roster entry gets
the full draft format back. -/
theorem claim_C8_team_needs (s : DraftState) (t : Int)
    (hfmt : ∀ pr ∈ s.draftFormat, 0 ≤ pr.2) :
    get_team_needs s t
      = s.draftFormat.map (fun pr =>
          (pr.1, max 0 (pr.2 -
            (countPosition ((lookupRoster s.teamRosters (JKey.intKey t)).getD []) pr.1 : Int)))) ∧
    (∀ pr ∈ get_team_needs s t, 0 ≤ pr.2) ∧
    (lookupRoster s.teamRosters (JKey.intKey t) = none → get_team_needs s t = s.draftFormat) := by
  cases hlook : lookupRoster s.teamRosters (JKey.intKey t) with
  | none =>
    have hred : get_team_needs s t = s.draftFormat := by
      unfold get_team_needs
      rw [hlook]
    refine ⟨?_, ?_, fun _ => hred⟩
    · rw [hred]
      have haux : ∀ l : List (String × Int), (∀ pr ∈ l, 0 ≤ pr.2) →
          l = l.map (fun pr => (pr.1, max 0 (pr.2 - (countPosition [] pr.1 : Int)))) := by
        intro l hl
        induction l with
        | nil => rfl
        | cons a tl ih =>
          have ha : 0 ≤ a.2 := hl a (List.mem_cons_self a tl)
          have htl := ih (fun pr hpr => hl pr (List.mem_cons_of_mem a hpr))
          simp only [List.map_cons]
          rw [← htl]
          have hmax : max 0 (a.2 - (countPosition [] a.1 : Int)) = a.2 := by
            simp [countPosition, max_eq_right ha]
          rw [hmax]
      exact haux s.draftFormat hfmt
    · rw [hred]; exact hfmt
  | some roster =>
    have hred : get_team_needs s t
        = s.draftFormat.map (fun pr => (pr.1, max 0 (pr.2 - (countPosition roster pr.1 : Int)))) := by
      unfold get_team_needs
      rw [hlook]
    refine ⟨?_, ?_, ?_⟩
    · rw [hred]
      rfl
    · rw [hred]
      intro pr hpr
      rcases List.mem_map.mp hpr with ⟨q, _, hq⟩
      rw [← hq]
      exact le_max_left 0 _
    · intro hc
      exact Option.noConfusion hc

/-- C8 witness: the theorem applied at a state where team 3 has one QB
rostered under a format of one QB slot and two RB slots, all slot counts
non-negative. -/
theorem claim_C8_team_needs_witness :
    get_team_needs c8State 3
      = c8State.draftFormat.map (fun pr =>
          (pr.1, max 0 (pr.2 -
            (countPosition ((lookupRoster c8State.teamRosters (JKey.intKey 3)).getD []) pr.1 : Int)))) ∧
    (∀ pr ∈ get_team_needs c8State 3, 0 ≤ pr.2) ∧
    (lookupRoster c8State.teamRosters (JKey.intKey 3) = none →
      get_team_needs c8State 3 = c8State.draftFormat) :=
  claim_C8_team_needs c8State 3 (by decide)

/-! ### C7: a full round of advances; the worked thirteen-pick example -/

theorem advance_iterate_reaches_last (n : Nat) :
    ∀ s : DraftState, s.pick + (n : Int) = s.totalTeams → 1 ≤ s.pick →
      advanceDraftPosition^[n] s = { s with pick := s.totalTeams } := by
  induction n with
  | zero =>
    intro s hsum _
    have hp : s.pick = s.totalTeams := by omega
    cases s
    simp only [Function.iterate_zero, id]
    simp_all
  | succ n ih =>
    intro s hsum hp
    have hne : ¬ s.pick = s.totalTeams := by
      push_cast at hsum
      omega
    have hstep : advanceDraftPosition s = { s with pick := s.pick + 1 } := by
      unfold advanceDraftPosition
      rw [if_neg hne]
    rw [Function.iterate_succ_apply, hstep]
    have h1 : ({ s with pick := s.pick + 1 } : DraftState).pick + (n : Int)
        = ({ s with pick := s.pick + 1 } : DraftState).totalTeams := by
      show s.pick + 1 + (n : Int) = s.totalTeams
      push_cast at hsum
      omega
    have h2 : 1 ≤ ({ s with pick := s.pick + 1 } : DraftState).pick := by
      show 1 ≤ s.pick + 1
      omega
    exact ih { s with pick := s.pick + 1 } h1 h2

/-- C7: applying `_advance_draft_position` exactly `total_teams` times
from `(r, 1)` yields `(r+1, 1)` with nothing else changed; and concretely,
in the spec's worked example (12 teams, user is team 5, full example
format), thirteen successful auto-numbered `record_pick` calls from
`(1, 1)` leave the tracker at `(round 2, pick 2)` with team 11 on the
clock. -/
theorem claim_C7_advance_full_round :
    (∀ s : DraftState, s.pick = 1 → 1 ≤ s.totalTeams →
      advanceDraftPosition^[s.totalTeams.toNat] s
        = { s with round := s.round + 1, pick := 1 }) ∧
    (recordAllOk exampleCatalog c7Start c7Reqs = true ∧
     (runRecords exampleCatalog c7Start c7Reqs).round = 2 ∧
     (runRecords exampleCatalog c7Start c7Reqs).pick = 2 ∧
     calculateCurrentTeam (runRecords exampleCatalog c7Start c7Reqs) = 11) := by
  constructor
  · intro s hp hT
    have hsplit : s.totalTeams.toNat = (s.totalTeams.toNat - 1) + 1 := by omega
    rw [hsplit, Function.iterate_succ_apply']
    have hlast := advance_iterate_reaches_last (s.totalTeams.toNat - 1) s
      (by omega) (by omega)
    rw [hlast]
    unfold advanceDraftPosition
    rw [if_pos rfl]
  · refine ⟨by decide, by decide, by decide, by decide⟩

/-- C7 witness: the universally quantified half applied at a concrete
4-team tracker state at `(3, 1)`, landing on `(4, 1)`. -/
theorem claim_C7_advance_full_round_witness :
    advanceDraftPosition^[c7IterState.totalTeams.toNat] c7IterState
      = { c7IterState with round := c7IterState.round + 1, pick := 1 } :=
  claim_C7_advance_full_round.1 c7IterState rfl (by decide)

/-! ### C5: a recorded player never reappears among the available ones -/

theorem mem_insertByRank (p x : Player) (l : List Player) :
    x ∈ insertByRank p l ↔ x = p ∨ x ∈ l := by
  induction l with
  | nil => simp [insertByRank]
  | cons q t ih =>
    unfold insertByRank
    split
    · simp only [List.mem_cons, ih]
      tauto
    · simp

theorem mem_sortByRank (x : Player) (l : List Player) :
    x ∈ sortByRank l ↔ x ∈ l := by
  induction l with
  | nil => simp [sortByRank]
  | cons p t ih =>
    unfold sortByRank
    rw [mem_insertByRank, ih]
    simp

theorem mem_available_iff (catalog : List Player) (s : DraftState) (p : Player) :
    p ∈ get_available_players catalog s ↔ p ∈ catalog ∧ ¬ p.name ∈ draftedNames s := by
  unfold get_available_players
  rw [mem_sortByRank, List.mem_filter]
  simp

theorem drafted_of_record (catalog : List Player) (s : DraftState)
    (playerName : String) (tn : Option Int) (iy : Option Bool) (x : String)
    (hx : x ∈ draftedNames s) :
    x ∈ draftedNames (record_pick catalog s playerName tn iy).2 := by
  unfold record_pick
  cases hf : findPlayer catalog playerName with
  | none => exact hx
  | some player =>
    simp only [draftedNames, advance_draftedPlayers, List.map_append, List.mem_append]
    exact Or.inl hx

theorem drafted_of_runRecords (catalog : List Player) (x : String) :
    ∀ (reqs : List RecordReq) (s : DraftState), x ∈ draftedNames s →
      x ∈ draftedNames (runRecords catalog s reqs) := by
  intro reqs
  induction reqs with
  | nil => intro s hx; exact hx
  | cons r t ih =>
    intro s hx
    exact ih _ (drafted_of_record catalog s r.name r.teamNumber r.isYourPick x hx)

theorem record_success_drafted (catalog : List Player) (s : DraftState)
    (playerName : String) (tn : Option Int) (iy : Option Bool)
    (hsucc : (record_pick catalog s playerName tn iy).1 = true) :
    playerName ∈ draftedNames (record_pick catalog s playerName tn iy).2 := by
  unfold record_pick at hsucc ⊢
  cases hf : findPlayer catalog playerName with
  | none => rw [hf] at hsucc; exact absurd hsucc (by simp)
  | some player =>
    simp only [hf, draftedNames, advance_draftedPlayers, List.map_append, List.mem_append]
    exact Or.inr (by simp)

/-- C5: once `record_pick` has accepted a player, that player is missing
from `get_available_players` in the state right after the call, and stays
missing in every state reached from there by any further sequence of
`record_pick` calls. -/
theorem claim_C5_drafted_never_available (catalog : List Player) (s : DraftState)
    (playerName : String) (tn : Option Int) (iy : Option Bool) (reqs : List RecordReq)
    (hsucc : (record_pick catalog s playerName tn iy).1 = true) :
    (∀ p ∈ get_available_players catalog (record_pick catalog s playerName tn iy).2,
      p.name ≠ playerName) ∧
    (∀ p ∈ get_available_players catalog
        (runRecords catalog (record_pick catalog s playerName tn iy).2 reqs),
      p.name ≠ playerName) := by
  have h1 := record_success_drafted catalog s playerName tn iy hsucc
  constructor
  · intro p hp hname
    have := (mem_available_iff catalog _ p).mp hp
    rw [hname] at this
    exact this.2 h1
  · intro p hp hname
    have h2 := drafted_of_runRecords catalog playerName reqs _ h1
    have := (mem_available_iff catalog _ p).mp hp
    rw [hname] at this
    exact this.2 h2

/-- C5 witness: the theorem applied after recording the top example player
and then one further pick. -/
theorem claim_C5_drafted_never_available_witness :
    (∀ p ∈ get_available_players exampleCatalog
        (record_pick exampleCatalog c2State "Alpha RB" none none).2,
      p.name ≠ "Alpha RB") ∧
    (∀ p ∈ get_available_players exampleCatalog
        (runRecords exampleCatalog (record_pick exampleCatalog c2State "Alpha RB" none none).2
          [{ name := "Bravo WR", teamNumber := none, isYourPick := none }]),
      p.name ≠ "Alpha RB") :=
  claim_C5_drafted_never_available exampleCatalog c2State "Alpha RB" none none
    [{ name := "Bravo WR", teamNumber := none, isYourPick := none }] (by decide)

/-! ### C1: the export/import round trip does not restore the summary -/

/-- C1: the JSON round trip breaks the summary. `export_draft_state`
serializes `team_rosters` with its `int` keys, which JSON can only store
as strings; `import_draft_state` installs the loaded dict without
converting them back, so after one recorded pick the summary's roster for
the user's team comes back empty and the needs come back as the untouched
draft format — the round-tripped summary is not the original one. -/
theorem claim_C1_roundtrip_summary_differs :
    (get_draft_summary (exportThenImport c1State)).yourRoster = [] ∧
    (get_draft_summary c1State).yourRoster ≠ [] ∧
    (get_draft_summary (exportThenImport c1State)).yourNeeds = c1State.draftFormat ∧
    (get_draft_summary c1State).yourNeeds ≠ c1State.draftFormat ∧
    get_draft_summary (exportThenImport c1State) ≠ get_draft_summary c1State := by
  decide

/-! ### C4: whether a player can be drafted twice -/

theorem lookupRoster_eq_none_iff (rosters : List (JKey × List Pick)) (k : JKey) :
    lookupRoster rosters k = none ↔ ¬ k ∈ rosterKeys rosters := by
  unfold lookupRoster rosterKeys
  rw [Option.map_eq_none', List.find?_eq_none]
  simp only [List.mem_map, decide_eq_true_eq]
  constructor
  · rintro h ⟨kv, hkv, hk⟩
    exact h kv hkv hk
  · rintro h kv hkv hk
    exact h ⟨kv, hkv, hk⟩

theorem updateRoster_keys_nodup (rosters : List (JKey × List Pick)) (k : JKey) (p : Pick)
    (hnd : (rosterKeys rosters).Nodup) :
    (rosterKeys (updateRoster rosters k p)).Nodup := by
  cases hl : lookupRoster rosters k with
  | none =>
    have hup : updateRoster rosters k p = rosters ++ [(k, [p])] := by
      unfold updateRoster
      rw [hl]
    have hk : ¬ k ∈ rosterKeys rosters := (lookupRoster_eq_none_iff rosters k).mp hl
    rw [hup]
    unfold rosterKeys at *
    rw [List.map_append, List.nodup_append]
    exact ⟨hnd, List.nodup_singleton k, by simpa using hk⟩
  | some r =>
    have hup : updateRoster rosters k p
        = rosters.map (fun kv => if kv.1 = k then (kv.1, kv.2 ++ [p]) else kv) := by
      unfold updateRoster
      rw [hl]
    have hkeys : rosterKeys (rosters.map (fun kv => if kv.1 = k then (kv.1, kv.2 ++ [p]) else kv))
        = rosterKeys rosters := by
      unfold rosterKeys
      rw [List.map_map]
      apply List.map_congr_left
      intro kv _
      by_cases h : kv.1 = k <;> simp [h]
    rw [hup, hkeys]
    exact hnd

theorem allRosterPicks_cons (a : JKey × List Pick) (t : List (JKey × List Pick)) :
    allRosterPicks (a :: t) = a.2 ++ allRosterPicks t := by
  simp [allRosterPicks]

theorem countP_flatten_mapAppend (pred : Pick → Bool) (k : JKey) (p : Pick) :
    ∀ rosters : List (JKey × List Pick), (rosterKeys rosters).Nodup →
      (∃ r, lookupRoster rosters k = some r) →
      (allRosterPicks (rosters.map (fun kv => if kv.1 = k then (kv.1, kv.2 ++ [p]) else kv))).countP pred
        = (allRosterPicks rosters).countP pred + (if pred p then 1 else 0) := by
  intro rosters
  induction rosters with
  | nil =>
    rintro _ ⟨r, hr⟩
    exact absurd hr (by simp [lookupRoster])
  | cons a t ih =>
    rintro hnd ⟨r, hr⟩
    rw [rosterKeys, List.map_cons, List.nodup_cons] at hnd
    by_cases h : a.1 = k
    · have hkt : ∀ kv ∈ t, ¬ kv.1 = k := by
        intro kv hkv hk2
        exact hnd.1 (h ▸ hk2 ▸ List.mem_map_of_mem (fun kv => kv.1) hkv)
      have hmap : t.map (fun kv => if kv.1 = k then (kv.1, kv.2 ++ [p]) else kv) = t := by
        have hid : t.map (fun kv => if kv.1 = k then (kv.1, kv.2 ++ [p]) else kv) = t.map id :=
          List.map_congr_left (fun kv hkv => by rw [if_neg (hkt kv hkv)]; rfl)
        simpa using hid
      rw [List.map_cons, if_pos h, hmap, allRosterPicks_cons, allRosterPicks_cons]
      simp only [List.countP_append]
      have hsing : List.countP pred [p] = if pred p then 1 else 0 := by
        simp [List.countP_cons]
      rw [hsing]
      omega
    · have hr2 : lookupRoster t k = some r := by
        unfold lookupRoster at hr ⊢
        rw [List.find?_cons_of_neg _ (by simpa using h)] at hr
        exact hr
      have := ih hnd.2 ⟨r, hr2⟩
      rw [List.map_cons, if_neg h, allRosterPicks_cons, allRosterPicks_cons]
      simp only [List.countP_append]
      omega

theorem countP_update (pred : Pick → Bool) (rosters : List (JKey × List Pick)) (k : JKey)
    (p : Pick) (hnd : (rosterKeys rosters).Nodup) :
    (allRosterPicks (updateRoster rosters k p)).countP pred
      = (allRosterPicks rosters).countP pred + (if pred p then 1 else 0) := by
  cases hl : lookupRoster rosters k with
  | none =>
    have hup : updateRoster rosters k p = rosters ++ [(k, [p])] := by
      unfold updateRoster
      rw [hl]
    rw [hup]
    unfold allRosterPicks
    rw [List.map_append, List.flatten_append, List.countP_append]
    simp [List.countP_cons]
  | some r =>
    have hup : updateRoster rosters k p
        = rosters.map (fun kv => if kv.1 = k then (kv.1, kv.2 ++ [p]) else kv) := by
      unfold updateRoster
      rw [hl]
    rw [hup]
    exact countP_flatten_mapAppend pred k p rosters hnd ⟨r, hl⟩

theorem record_pick_success_state (catalog : List Player) (s : DraftState) (n : String)
    (tn : Option Int) (iy : Option Bool) (player : Player)
    (hf : findPlayer catalog n = some player) :
    ∃ pi : Pick, pi.playerName = n ∧
      (record_pick catalog s n tn iy).2.draftedPlayers = s.draftedPlayers ++ [pi] ∧
      (record_pick catalog s n tn iy).2.teamRosters
        = updateRoster s.teamRosters (JKey.intKey pi.teamNumber) pi := by
  refine ⟨{ playerName := n, teamNumber := tn.getD (calculateCurrentTeam s),
            position := player.position, expertRank := player.expertRank,
            round := s.round, pick := s.pick,
            isYourPick := iy.getD (tn.getD (calculateCurrentTeam s) = s.currentTeam) },
          rfl, ?_, ?_⟩
  · simp [record_pick, hf, advance_draftedPlayers]
  · simp [record_pick, hf, advance_teamRosters]

theorem record_counts_step (catalog : List Player) (s : DraftState) (n : String)
    (tn : Option Int) (iy : Option Bool) (x : String)
    (hnd : (rosterKeys s.teamRosters).Nodup) :
    (rosterKeys (record_pick catalog s n tn iy).2.teamRosters).Nodup ∧
    histCountName x (record_pick catalog s n tn iy).2
      ≤ histCountName x s + (if n = x then 1 else 0) ∧
    rosterCountName x (record_pick catalog s n tn iy).2
      ≤ rosterCountName x s + (if n = x then 1 else 0) := by
  cases hf : findPlayer catalog n with
  | none =>
    have hst : (record_pick catalog s n tn iy).2 = s := by
      simp [record_pick, hf]
    rw [hst]
    exact ⟨hnd, Nat.le_add_right _ _, Nat.le_add_right _ _⟩
  | some player =>
    obtain ⟨pi, hpn, hdraft, hrost⟩ := record_pick_success_state catalog s n tn iy player hf
    refine ⟨?_, ?_, ?_⟩
    · rw [hrost]
      exact updateRoster_keys_nodup _ _ _ hnd
    · unfold histCountName
      rw [hdraft, List.countP_append]
      simp only [List.countP_cons, List.countP_nil, hpn, decide_eq_true_eq]
      omega
    · unfold rosterCountName
      rw [hrost, countP_update _ _ _ _ hnd]
      simp only [hpn, decide_eq_true_eq]
      omega

theorem runRecords_counts (catalog : List Player) (x : String) :
    ∀ (reqs : List RecordReq) (s : DraftState), (rosterKeys s.teamRosters).Nodup →
      (rosterKeys (runRecords catalog s reqs).teamRosters).Nodup ∧
      histCountName x (runRecords catalog s reqs)
        ≤ histCountName x s + reqs.countP (fun r => r.name = x) ∧
      rosterCountName x (runRecords catalog s reqs)
        ≤ rosterCountName x s + reqs.countP (fun r => r.name = x) := by
  intro reqs
  induction reqs with
  | nil =>
    intro s hnd
    exact ⟨hnd, Nat.le_add_right _ _, Nat.le_add_right _ _⟩
  | cons r t ih =>
    intro s hnd
    have hstep := record_counts_step catalog s r.name r.teamNumber r.isYourPick x hnd
    have hrest := ih ((record_pick catalog s r.name r.teamNumber r.isYourPick).2) hstep.1
    have hrun : runRecords catalog s (r :: t)
        = runRecords catalog ((record_pick catalog s r.name r.teamNumber r.isYourPick).2) t := rfl
    rw [hrun, List.countP_cons]
    refine ⟨hrest.1, ?_, ?_⟩
    · have ha := hrest.2.1
      have hb := hstep.2.1
      simp only [decide_eq_true_eq] at hb ⊢
      by_cases h : r.name = x
      · rw [if_pos h] at hb ⊢
        omega
      · rw [if_neg h] at hb ⊢
        omega
    · have ha := hrest.2.2
      have hb := hstep.2.2
      simp only [decide_eq_true_eq] at hb ⊢
      by_cases h : r.name = x
      · rw [if_pos h] at hb ⊢
        omega
      · rw [if_neg h] at hb ⊢
        omega

theorem countP_name_le_one (x : String) :
    ∀ l : List RecordReq, (l.map RecordReq.name).Nodup →
      l.countP (fun r => r.name = x) ≤ 1 := by
  intro l
  induction l with
  | nil => simp
  | cons r t ih =>
    intro hnd
    rw [List.map_cons, List.nodup_cons] at hnd
    rw [List.countP_cons]
    by_cases h : r.name = x
    · have hzero : t.countP (fun r2 => r2.name = x) = 0 := by
        rw [List.countP_eq_zero]
        intro a ha
        simp only [decide_eq_true_eq]
        intro hax
        exact hnd.1 (h ▸ hax ▸ List.mem_map_of_mem RecordReq.name ha)
      simp [hzero, h]
    · simp only [decide_eq_true_eq]
      rw [if_neg h]
      simpa using ih hnd.2

/-- C4 counterexample: `record_pick` does not check whether a player was
already drafted.  Recording the same example player twice from a fresh
12-team state is accepted both times and leaves two picks with that name
in the global history and two across the team rosters — a reachable state
in which a player name appears in more than one Pick. -/
theorem claim_C4_counterexample :
    (record_pick exampleCatalog c1State "Alpha RB" none none).1 = true ∧
    histCountName "Alpha RB" c4State = 2 ∧
    rosterCountName "Alpha RB" c4State = 2 := by
  decide

/-- C4 amended: the drafted-at-most-once invariant holds for every
sequence of `record_pick` calls whose submitted player names are pairwise
distinct (the engine itself accepts duplicates, so uniqueness of the
submitted names is required): starting from a fresh state, every player
name ends up in at most one Pick in the global history and at most one
Pick across all team rosters. -/
theorem claim_C4_amended (catalog : List Player) (totalTeams currentTeam : Int)
    (fmt : List (String × Int)) (reqs : List RecordReq)
    (hnames : (reqs.map RecordReq.name).Nodup) (x : String) :
    histCountName x (runRecords catalog (freshState totalTeams currentTeam fmt) reqs) ≤ 1 ∧
    rosterCountName x (runRecords catalog (freshState totalTeams currentTeam fmt) reqs) ≤ 1 := by
  have h0 : (rosterKeys (freshState totalTeams currentTeam fmt).teamRosters).Nodup := by
    simp [freshState, set_draft_parameters, set_draft_format, initialDraftState, rosterKeys]
  have hrun := runRecords_counts catalog x reqs _ h0
  have hcnt := countP_name_le_one x reqs hnames
  have h1 : histCountName x (freshState totalTeams currentTeam fmt) = 0 := rfl
  have h2 : rosterCountName x (freshState totalTeams currentTeam fmt) = 0 := rfl
  have ha := hrun.2.1
  have hb := hrun.2.2
  exact ⟨by omega, by omega⟩

/-- C4 witness: the amended theorem applied to two distinct-name requests
against the example catalog. -/
theorem claim_C4_amended_witness :
    histCountName "Alpha RB"
      (runRecords exampleCatalog (freshState 12 1 exampleFormat)
        [{ name := "Alpha RB", teamNumber := none, isYourPick := none },
         { name := "Bravo WR", teamNumber := none, isYourPick := none }]) ≤ 1 ∧
    rosterCountName "Alpha RB"
      (runRecords exampleCatalog (freshState 12 1 exampleFormat)
        [{ name := "Alpha RB", teamNumber := none, isYourPick := none },
         { name := "Bravo WR", teamNumber := none, isYourPick := none }]) ≤ 1 :=
  claim_C4_amended exampleCatalog 12 1 exampleFormat
    [{ name := "Alpha RB", teamNumber := none, isYourPick := none },
     { name := "Bravo WR", teamNumber := none, isYourPick := none }]
    (by decide) "Alpha RB"

/-! ### C2: the recommendation score formula -/

theorem find_name_of_nodup (l : List Player) (p : Player) (hmem : p ∈ l)
    (hnd : (l.map Player.name).Nodup) :
    l.find? (fun q => q.name = p.name) = some p := by
  induction l with
  | nil => cases hmem
  | cons a t ih =>
    rw [List.map_cons, List.nodup_cons] at hnd
    rcases List.mem_cons.mp hmem with heq | hmem2
    · subst heq
      exact List.find?_cons_of_pos _ (by simp)
    · by_cases hname : a.name = p.name
      · exact absurd (hname ▸ List.mem_map_of_mem Player.name hmem2) hnd.1
      · rw [List.find?_cons_of_neg _ (by simpa using hname)]
        exact ih hmem2 hnd.2

theorem perm_insertByRank (p : Player) (l : List Player) :
    (insertByRank p l).Perm (p :: l) := by
  induction l with
  | nil => exact List.Perm.refl _
  | cons q t ih =>
    unfold insertByRank
    split
    · exact (List.Perm.cons q ih).trans (List.Perm.swap p q t)
    · exact List.Perm.refl _

theorem perm_sortByRank (l : List Player) : (sortByRank l).Perm l := by
  induction l with
  | nil => exact List.Perm.refl _
  | cons p t ih =>
    unfold sortByRank
    exact (perm_insertByRank p (sortByRank t)).trans (List.Perm.cons p ih)

theorem available_names_nodup (catalog : List Player) (s : DraftState)
    (hnd : (catalog.map Player.name).Nodup) :
    ((get_available_players catalog s).map Player.name).Nodup := by
  have hfilter : ((catalog.filter (fun p => ¬ p.name ∈ draftedNames s)).map Player.name).Nodup :=
    ((List.filter_sublist catalog).map Player.name).nodup hnd
  exact (((perm_sortByRank _).map Player.name).nodup_iff).mpr hfilter

/-- C2: for every available player in a state with unique catalog names,
the per-player score computed by `get_recommendations` equals the spec's
formula `1/expert_rank + need_bonus + value_bonus + scarcity_bonus +
adp_value_bonus`, where `adp_value_bonus` is `0` when
`expert_rank ≥ current_overall_position` and
`min((position - expert_rank) * 0.1, 2.0)` otherwise; `need_bonus` is
`need * 0.3` for positive remaining need and `-0.2` otherwise;
`value_bonus` is the player's own min-max-normalized relative value times
`0.02`; and `scarcity_bonus` is
`max(0, (10 - available_at_position) * 0.1)`. -/
theorem claim_C2_score_formula (catalog : List Player) (s : DraftState) (p : Player)
    (hnd : (catalog.map Player.name).Nodup)
    (hmem : p ∈ get_available_players catalog s) :
    recommendationScore catalog s p = specScore catalog s p := by
  have hfind : (get_available_players catalog s).find? (fun q => q.name = p.name) = some p :=
    find_name_of_nodup (get_available_players catalog s) p hmem
      (available_names_nodup catalog s hnd)
  simp only [recommendationScore, specScore, relativeValueByName, get_current_draft_position,
    hfind, Option.map_some', Option.getD_some]
  rcases lt_or_le p.expertRank (((s.round - 1) * s.totalTeams + s.pick : Int) : ℚ) with h | h
  · rw [if_pos h, if_neg (not_le.mpr h)]
  · rw [if_neg (not_lt.mpr h), if_pos h]

/-- C2 witness: the theorem applied at a two-player catalog with unique
names and the fresh example state, for its top available player. -/
theorem claim_C2_score_formula_witness :
    recommendationScore c2Catalog c2State c2Player = specScore c2Catalog c2State c2Player :=
  claim_C2_score_formula c2Catalog c2State c2Player (by decide) (by decide)
